import Mathlib

/-!
Verification of the aws-s3-cli shell (src/aws-s3-cli.ts).

Shallow embedding of the dispatch/validation shell of the S3 CLI:
environment-file loading, the yargs command dispatcher, per-command request
construction (`createBucket`, `getBucketRegion`, `uploadFile`, `downloadFile`),
and the pure formatting helpers `formatBytes` and `getContentType`.

Modelling choices:
* JS strings are Lean `String`/`List Char`; `String.prototype.toLowerCase` is
  modelled on the ASCII range (all extensions in the content-type table are
  ASCII).
* `path.basename` / `path.extname` follow Node's documented POSIX semantics:
  trailing slashes are ignored, the extension runs from the last `.` of the
  basename, a dot in first position of the basename yields no extension, and
  `".."` has no extension.
* JS numbers in `formatBytes` are modelled with exact arithmetic: byte counts
  are `Nat`, the scaled value is a rational, `Math.floor(Math.log b / Math.log
  1024)` is `Nat.log 1024 b`, and `toFixed`/`parseFloat` is rounding to `dm`
  decimal digits.
* `dotenv.config` follows dotenv's documented contract: it never overwrites an
  environment variable that is already set.
-/

namespace S3Cli

/-! ## ASCII lowercasing (JS `toLowerCase` on the ASCII range) -/

def upperLowerPairs : List (Char × Char) :=
  [('A', 'a'), ('B', 'b'), ('C', 'c'), ('D', 'd'), ('E', 'e'), ('F', 'f'),
   ('G', 'g'), ('H', 'h'), ('I', 'i'), ('J', 'j'), ('K', 'k'), ('L', 'l'),
   ('M', 'm'), ('N', 'n'), ('O', 'o'), ('P', 'p'), ('Q', 'q'), ('R', 'r'),
   ('S', 's'), ('T', 't'), ('U', 'u'), ('V', 'v'), ('W', 'w'), ('X', 'x'),
   ('Y', 'y'), ('Z', 'z')]

def lowerChar (c : Char) : Char := (upperLowerPairs.lookup c).getD c

def lowerList (l : List Char) : List Char := l.map lowerChar

def lowerStr (s : String) : String := String.mk (lowerList s.data)

/-! ## Node `path` helpers (POSIX) -/

/-- Strip all trailing `/` characters (Node ignores trailing slashes when
computing a path's last portion). -/
def dropTrailingSlashes (l : List Char) : List Char :=
  (l.reverse.dropWhile (fun c => c == '/')).reverse

/-- The suffix after the last `/` (the whole list when no slash occurs). -/
def lastComponent (l : List Char) : List Char :=
  (l.reverse.takeWhile (fun c => !(c == '/'))).reverse

def basenameList (l : List Char) : List Char := lastComponent (dropTrailingSlashes l)

/-- Node `path.basename` (POSIX, no `ext` argument). -/
def basename (s : String) : String := String.mk (basenameList s.data)

/-- The suffix of the list starting at its last `.` (none when no dot occurs). -/
def extSuffix : List Char → Option (List Char) → Option (List Char)
  | [], acc => acc
  | c :: rest, acc => extSuffix rest (if c == '.' then some (c :: rest) else acc)

/-- The extension of a basename: the suffix from its last `.`, empty when the
basename has no dot, when its only dot is its first character, or when it is
`".."`. -/
def extFromBase (b : List Char) : List Char :=
  if b = ['.', '.'] then []
  else
    match extSuffix b none with
    | none => []
    | some e => if e.length = b.length then [] else e

/-- Node `path.extname` (POSIX) on the character list: the extension runs from
the last `.` of the basename; a basename with no dot, with its only dot in
first position, or equal to `".."` has no extension. -/
def extnameList (l : List Char) : List Char := extFromBase (basenameList l)

def extname (s : String) : String := String.mk (extnameList s.data)

/-! ## Environment loading (lines 3-44 of aws-s3-cli.ts)

The process environment and a parsed env file are association lists of
key-value pairs. `dotenvPopulate` is `dotenv.config` applied to an already
parsed file: per dotenv's documented contract it sets a key only when the key
is not already present in the environment. -/

def dotenvPopulate (env : List (String × String)) (file : List (String × String)) :
    List (String × String) :=
  file.foldl (fun e kv => if (e.lookup kv.1).isSome then e else e ++ [kv]) env

/-- The raw-argv scan of lines 37-44: the first occurrence of the literal
token `--env-file`, when followed by at least one further argument, names the
explicit env file (the next raw argument). -/
def envFileArg (argv : List String) : Option String :=
  if argv.contains "--env-file" then
    match argv.findIdx? (fun a => a == "--env-file") with
    | some i => if i + 1 < argv.length then argv.get? (i + 1) else none
    | none => none
  else none

/-- Process startup: line 5 loads the default `.env` file, then lines 37-44
additionally load the explicitly named file when `--env-file` occurs in the
raw argument vector. `files` maps an env-file path to its parsed contents. -/
def loadEnv (argv : List String) (initialEnv : List (String × String))
    (files : String → List (String × String)) : List (String × String) :=
  let env1 := dotenvPopulate initialEnv (files ".env")
  match envFileArg argv with
  | some p => dotenvPopulate env1 (files p)
  | none => env1

/-! ## The yargs command dispatcher (lines 47-183) -/

inductive Cmd where
  | listBuckets
  | getBucketRegion
  | createBucket
  | deleteBucket
  | listFiles
  | uploadFile
  | downloadFile
  | deleteFile
  deriving DecidableEq, Repr

def cmdName : Cmd → String
  | .listBuckets => "list-buckets"
  | .getBucketRegion => "get-bucket-region"
  | .createBucket => "create-bucket"
  | .deleteBucket => "delete-bucket"
  | .listFiles => "list-files"
  | .uploadFile => "upload-file"
  | .downloadFile => "download-file"
  | .deleteFile => "delete-file"

/-- The options declared with `demandOption: true` in each command's builder. -/
def requiredOpts : Cmd → List String
  | .listBuckets => []
  | .getBucketRegion => ["name"]
  | .createBucket => ["name"]
  | .deleteBucket => ["name"]
  | .listFiles => ["bucket"]
  | .uploadFile => ["bucket", "file"]
  | .downloadFile => ["bucket", "key"]
  | .deleteFile => ["bucket", "key"]

def parseCmd (s : String) : Option Cmd :=
  if s = "list-buckets" then some .listBuckets
  else if s = "get-bucket-region" then some .getBucketRegion
  else if s = "create-bucket" then some .createBucket
  else if s = "delete-bucket" then some .deleteBucket
  else if s = "list-files" then some .listFiles
  else if s = "upload-file" then some .uploadFile
  else if s = "download-file" then some .downloadFile
  else if s = "delete-file" then some .deleteFile
  else none

inductive DispatchOutcome where
  /-- Parse-time validation failed: yargs prints the usage error and the
  process exits with code 1 before any handler runs. -/
  | usageError
  /-- The named command's handler is invoked (the only place an API call can
  originate). -/
  | ran (c : Cmd)
  /-- Parsing succeeded but the first positional matched no declared command:
  with no strict mode configured, yargs runs no handler and the script reaches
  its end, exiting 0. -/
  | noHandler
  deriving DecidableEq, Repr

/-- The dispatcher: `demandCommand(1, ...)` rejects a missing command; a known
command checks its `demandOption` set against the provided options; an unknown
first positional is accepted by non-strict yargs and runs nothing. -/
def dispatch (cmdTok : Option String) (provided : List String) : DispatchOutcome :=
  match cmdTok with
  | none => .usageError
  | some s =>
    match parseCmd s with
    | some c =>
      if ∀ r ∈ requiredOpts c, r ∈ provided then .ran c else .usageError
    | none => .noHandler

/-- Exit code of the invocation as determined by the dispatcher alone
(a `ran` handler may still exit 1 later if its API call fails). -/
def dispatchExitCode : DispatchOutcome → Nat
  | .usageError => 1
  | .ran _ => 0
  | .noHandler => 0

/-- Whether the dispatcher outcome reaches a handler (and hence can attempt an
external API call). -/
def apiCallAttempted : DispatchOutcome → Bool
  | .ran _ => true
  | _ => false

/-! ## get-bucket-region (lines 237-268) -/

structure GetBucketRegionRun where
  /-- Region the query client is constructed with (line 242). -/
  clientRegion : String
  /-- Region printed for the bucket (lines 256-263). -/
  reported : String
  deriving DecidableEq, Repr

/-- Handler `getBucketRegion`, as a function of the `--region` option and the
`LocationConstraint` field of the external API's response (`none` models a
missing/null field; the empty string is JS-falsy and treated the same way). -/
def getBucketRegionRun (_argvRegion : String) (_name : String)
    (locationConstraint : Option String) : GetBucketRegionRun :=
  { clientRegion := "us-east-1"
    reported :=
      match locationConstraint with
      | none => "us-east-1"
      | some r => if r = "" then "us-east-1" else r }

/-! ## create-bucket (lines 273-292) -/

structure CreateBucketRequest where
  bucket : String
  locationConstraint : Option String
  deriving DecidableEq, Repr

/-- yargs gives `--region` the default `"us-east-1"` when the option is
omitted (lines 49-53). -/
def effectiveRegion (regionOpt : Option String) : String := regionOpt.getD "us-east-1"

/-- The `CreateBucketCommand` input built on lines 276-282:
`LocationConstraint: argv.region !== "us-east-1" ? argv.region : undefined`. -/
def createBucketRequest (name : String) (region : String) : CreateBucketRequest :=
  { bucket := name
    locationConstraint := if region ≠ "us-east-1" then some region else none }

/-! ## Content-type lookup (lines 444-461) -/

def contentTypes : List (String × String) :=
  [(".html", "text/html"),
   (".css", "text/css"),
   (".js", "application/javascript"),
   (".json", "application/json"),
   (".png", "image/png"),
   (".jpg", "image/jpeg"),
   (".jpeg", "image/jpeg"),
   (".gif", "image/gif"),
   (".svg", "image/svg+xml"),
   (".txt", "text/plain"),
   (".pdf", "application/pdf")]

/-- Helper `getContentType`: lowercased `path.extname` looked up in the fixed table,
defaulting to the generic binary type. -/
def getContentType (filePath : String) : String :=
  (contentTypes.lookup (lowerStr (extname filePath))).getD "application/octet-stream"

/-! ## upload-file (lines 351-374) -/

structure PutObjectRequest where
  bucket : String
  key : String
  contentType : String
  deriving DecidableEq, Repr

/-- Line 354: `const key = argv.key || path.basename(filePath)`; the empty
string is JS-falsy, so an empty `--key` also falls back to the basename. -/
def resolveUploadKey (keyOpt : Option String) (filePath : String) : String :=
  match keyOpt with
  | some k => if k = "" then basename filePath else k
  | none => basename filePath

/-- The `PutObjectCommand` input built on lines 359-364. -/
def uploadRequest (bucket : String) (filePath : String) (keyOpt : Option String) :
    PutObjectRequest :=
  { bucket := bucket
    key := resolveUploadKey keyOpt filePath
    contentType := getContentType filePath }

/-! ## download-file (lines 379-403) -/

inductive DownloadOutcome where
  /-- The handler threw before creating the output file; the catch block
  prints the error and exits 1. -/
  | failed (msg : String)
  /-- The response body was piped into the file at this path. -/
  | written (outputPath : String)
  deriving DecidableEq, Repr

/-- Handler `downloadFile` after the `GetObjectCommand` response arrives, as a
function of the `--output` option, the object key, and the response body
(`none` models an absent `response.Body`). The body check on lines 389-391
precedes the output-path computation and the write-stream creation, so an
absent body fails before any local file is touched. Line 393:
`argv.output || path.basename(argv.key)` (empty string is JS-falsy). -/
def downloadFileRun (key : String) (outputOpt : Option String)
    (body : Option (List Nat)) : DownloadOutcome :=
  match body with
  | none => .failed "Empty response body"
  | some _ =>
    .written
      (match outputOpt with
       | some o => if o = "" then basename key else o
       | none => basename key)

def downloadExitCode : DownloadOutcome → Nat
  | .failed _ => 1
  | .written _ => 0

/-! ## formatBytes (lines 429-439) -/

def sizes : List String :=
  ["Bytes", "KB", "MB", "GB", "TB", "PB", "EB", "ZB", "YB"]

/-- Line 436, `const i = Math.floor(Math.log(bytes) / Math.log(k))` with `k = 1024`,
in exact arithmetic. -/
def fbIndex (bytes : Nat) : Nat := Nat.log 1024 bytes

/-- The quotient `bytes / Math.pow(k, i)` as an exact rational. -/
def fbScaled (bytes : Nat) (i : Nat) : ℚ := (bytes : ℚ) / (1024 : ℚ) ^ i

/-- Line 438, `parseFloat((bytes / Math.pow(k, i)).toFixed(dm))`: the scaled value
rounded to `dm` decimal digits, in exact arithmetic. -/
def fbRounded (bytes : Nat) (dm : Nat) : ℚ :=
  (round (fbScaled bytes (fbIndex bytes) * 10 ^ dm) : ℚ) / 10 ^ dm

/-- The unit appended to the number: `sizes[i]`, which is out of range (JS
`undefined`) once `i ≥ 9`. -/
def fbUnit (bytes : Nat) : Option String := sizes.get? (fbIndex bytes)

/-- Decimal rendering of the rounded scaled value `n / 10^dm` the way JS
prints the result of `parseFloat`: no trailing fractional zeros, no fractional
part when the value is integral. -/
def renderScaled (n : Int) (dm : Nat) : String :=
  let nn := n.toNat
  let p := 10 ^ dm
  let ip := nn / p
  let fr := nn % p
  if fr = 0 then toString ip
  else
    let s := toString fr
    let padded := String.mk (List.replicate (dm - s.length) '0') ++ s
    let stripped := String.mk ((padded.data.reverse.dropWhile (fun c => c == '0')).reverse)
    toString ip ++ "." ++ stripped

/-- Function `formatBytes` (the source's default for `decimals` is 2). A JS
`undefined` unit is rendered as the string `"undefined"`, as JS string
concatenation does. -/
def formatBytes (bytes : Nat) (decimals : Int) : String :=
  if bytes = 0 then "0 Bytes"
  else
    let dm := if decimals < 0 then (0 : Nat) else decimals.toNat
    let i := fbIndex bytes
    renderScaled (round (fbScaled bytes i * 10 ^ dm)) dm ++ " " ++
      ((sizes.get? i).getD "undefined")

/-! ## Helper lemmas on association-list lookup -/

theorem mem_of_lookup_eq_some {α β : Type} [BEq α] [LawfulBEq α]
    {l : List (α × β)} {k : α} {v : β} (h : l.lookup k = some v) : (k, v) ∈ l := by
  induction l with
  | nil => simp at h
  | cons a t ih =>
    obtain ⟨ka, va⟩ := a
    rw [List.lookup_cons] at h
    cases hk : k == ka with
    | true =>
      rw [hk] at h
      cases h
      exact (eq_of_beq hk) ▸ List.mem_cons_self _ _
    | false =>
      rw [hk] at h
      exact List.mem_cons_of_mem _ (ih h)

theorem lookup_eq_none_of_forall {α β : Type} [BEq α] [LawfulBEq α]
    {l : List (α × β)} {k : α} (h : ∀ p ∈ l, p.1 ≠ k) : l.lookup k = none := by
  induction l with
  | nil => rfl
  | cons a t ih =>
    obtain ⟨ka, va⟩ := a
    rw [List.lookup_cons]
    cases hk : k == ka with
    | true => exact absurd (eq_of_beq hk).symm (h (ka, va) (List.mem_cons_self _ _))
    | false => exact ih fun p hp => h p (List.mem_cons_of_mem _ hp)

theorem lookup_append {α β : Type} [BEq α] (l₁ l₂ : List (α × β)) (k : α) :
    (l₁ ++ l₂).lookup k = (l₁.lookup k).or (l₂.lookup k) := by
  induction l₁ with
  | nil => simp
  | cons a t ih =>
    obtain ⟨ka, va⟩ := a
    rw [List.cons_append, List.lookup_cons, List.lookup_cons]
    cases hk : k == ka with
    | true => simp
    | false => simpa using ih

theorem lookup_dotenvPopulate (env file : List (String × String)) (k : String) :
    (dotenvPopulate env file).lookup k = (env.lookup k).or (file.lookup k) := by
  induction file generalizing env with
  | nil => simp [dotenvPopulate, Option.or_none]
  | cons f fs ih =>
    obtain ⟨fk, fv⟩ := f
    show (dotenvPopulate (if ((env.lookup fk).isSome) then env else env ++ [(fk, fv)]) fs).lookup k
        = (env.lookup k).or (((fk, fv) :: fs).lookup k)
    by_cases h : (env.lookup fk).isSome
    · rw [if_pos h, ih, List.lookup_cons]
      cases hk : k == fk with
      | true =>
        obtain ⟨v, hv⟩ := Option.isSome_iff_exists.mp h
        rw [eq_of_beq hk, hv]
        simp
      | false => rfl
    · rw [if_neg h, ih, lookup_append, List.lookup_cons]
      have henv : env.lookup fk = none := Option.not_isSome_iff_eq_none.mp h
      cases hk : k == fk with
      | true =>
        rw [eq_of_beq hk, henv]
        simp [List.lookup_cons]
      | false => simp [List.lookup_cons, hk, Option.or_none]

theorem lookup_loadEnv_of_envFileArg {argv : List String}
    {env0 : List (String × String)} {files : String → List (String × String)}
    {p : String} (k : String) (h : envFileArg argv = some p) :
    (loadEnv argv env0 files).lookup k =
      ((env0.lookup k).or ((files ".env").lookup k)).or ((files p).lookup k) := by
  simp only [loadEnv, h]
  rw [lookup_dotenvPopulate, lookup_dotenvPopulate]

theorem parseCmd_cmdName (c : Cmd) : parseCmd (cmdName c) = some c := by
  cases c <;> rfl

/-! ## Claim theorems -/

/-- C1, counterexample: with the default `.env` defining `K=a` and the
explicitly named file defining `K=b`, the final environment carries `a` — the
value from the default file, not from the explicitly named one — because
`dotenv.config` never overwrites a variable that is already set. This refutes
"last-loaded wins". -/
theorem envFile_lastLoaded_counterexample :
    (loadEnv ["node", "cli", "--env-file", "custom.env", "list-buckets"] []
        (fun p => if p = ".env" then [("K", "a")] else [("K", "b")])).lookup "K"
      = some "a" ∧
    ¬ (loadEnv ["node", "cli", "--env-file", "custom.env", "list-buckets"] []
        (fun p => if p = ".env" then [("K", "a")] else [("K", "b")])).lookup "K"
      = some "b" := by
  constructor <;> decide

/-- C1, amended: an explicit `--env-file` value present in the raw argument
vector is loaded in addition to the default `.env` file, but since
`dotenv.config` never overwrites an already-set variable, precedence is
first-loaded wins: prior environment beats the default file, which beats the
explicitly named file; the explicit file's values apply exactly to the keys
set nowhere earlier. -/
theorem envFile_precedence_amended (argv : List String)
    (env0 : List (String × String)) (files : String → List (String × String))
    (p k : String) (harg : envFileArg argv = some p) :
    (env0.lookup k = none → ∀ v, (files ".env").lookup k = some v →
      (loadEnv argv env0 files).lookup k = some v) ∧
    (env0.lookup k = none → (files ".env").lookup k = none →
      (loadEnv argv env0 files).lookup k = (files p).lookup k) ∧
    (∀ v, env0.lookup k = some v → (loadEnv argv env0 files).lookup k = some v) := by
  refine ⟨fun h0 v hd => ?_, fun h0 hd => ?_, fun v h0 => ?_⟩ <;>
    rw [lookup_loadEnv_of_envFileArg k harg]
  · rw [h0, hd]; rfl
  · rw [h0, hd]; rfl
  · rw [h0]; rfl

theorem envFile_precedence_amended_witness :
    envFileArg ["node", "cli", "--env-file", "custom.env", "list-buckets"]
      = some "custom.env" ∧
    (([] : List (String × String)).lookup "L" = none ∧
      ((fun p => if p = ".env" then [("K", "a")] else [("K", "b"), ("L", "x")])
          ".env").lookup "L" = none ∧
      (loadEnv ["node", "cli", "--env-file", "custom.env", "list-buckets"] []
          (fun p => if p = ".env" then [("K", "a")] else [("K", "b"), ("L", "x")])).lookup "L"
        = ((fun p => if p = ".env" then [("K", "a")] else [("K", "b"), ("L", "x")])
          "custom.env").lookup "L") :=
  ⟨by decide, by decide, by decide,
    (envFile_precedence_amended _ _ _ "custom.env" "L" (by decide)).2.1
      (by decide) (by decide)⟩

/-- C2: the create-bucket request omits the location constraint exactly when
the effective region is the canonical default `us-east-1` (also when
`--region` is omitted, whose yargs default is `us-east-1`), and carries
`LocationConstraint = r` for every other region `r`. -/
theorem createBucket_locationConstraint :
    (∀ name, (createBucketRequest name (effectiveRegion none)).locationConstraint = none) ∧
    (∀ name, (createBucketRequest name "us-east-1").locationConstraint = none) ∧
    (∀ name r, r ≠ "us-east-1" →
      (createBucketRequest name r).locationConstraint = some r) := by
  refine ⟨fun name => rfl, fun name => rfl, fun name r hr => ?_⟩
  simp [createBucketRequest, hr]

theorem createBucket_locationConstraint_witness :
    ("eu-west-1" : String) ≠ "us-east-1" ∧
    (createBucketRequest "X" "eu-west-1").locationConstraint = some "eu-west-1" :=
  ⟨by decide, createBucket_locationConstraint.2.2 "X" "eu-west-1" (by decide)⟩

/-- C4: `getBucketRegion` constructs its query client with the fixed region
`us-east-1` whatever `--region` says, and reports `us-east-1` whenever the
external API's location constraint is missing/null or the empty string. -/
theorem getBucketRegion_fixed_region :
    (∀ r n loc, (getBucketRegionRun r n loc).clientRegion = "us-east-1") ∧
    (∀ r n, (getBucketRegionRun r n none).reported = "us-east-1") ∧
    (∀ r n, (getBucketRegionRun r n (some "")).reported = "us-east-1") ∧
    (∀ r n, (getBucketRegionRun r n (some "eu-west-1")).reported = "eu-west-1") :=
  ⟨fun _ _ _ => rfl, fun _ _ => rfl, fun _ _ => rfl, fun _ _ => rfl⟩

/-- C5, counterexample: an unknown command is accepted by the non-strict
yargs configuration; no handler runs, no usage error is printed, and the
process exits 0 — not 1 as the claim states. -/
theorem unknownCommand_counterexample :
    dispatch (some "frobnicate") ["region"] = DispatchOutcome.noHandler ∧
    dispatchExitCode (dispatch (some "frobnicate") ["region"]) = 0 ∧
    apiCallAttempted (dispatch (some "frobnicate") ["region"]) = false := by
  refine ⟨?_, ?_, ?_⟩ <;> decide

/-- C5, amended: omitting a required option of a known command, or omitting
the command altogether, yields a usage error with exit code 1 and no API call
attempted; an unknown command also attempts no API call but (with no strict
mode configured) produces no usage error and exits 0. -/
theorem dispatch_validation_amended :
    (∀ c provided, (∃ r ∈ requiredOpts c, r ∉ provided) →
      dispatch (some (cmdName c)) provided = DispatchOutcome.usageError ∧
      dispatchExitCode (dispatch (some (cmdName c)) provided) = 1 ∧
      apiCallAttempted (dispatch (some (cmdName c)) provided) = false) ∧
    (∀ provided, dispatch none provided = DispatchOutcome.usageError ∧
      dispatchExitCode (dispatch none provided) = 1 ∧
      apiCallAttempted (dispatch none provided) = false) ∧
    (∀ s provided, parseCmd s = none →
      dispatch (some s) provided = DispatchOutcome.noHandler ∧
      dispatchExitCode (dispatch (some s) provided) = 0 ∧
      apiCallAttempted (dispatch (some s) provided) = false) := by
  refine ⟨fun c provided hmiss => ?_, fun provided => ⟨rfl, rfl, rfl⟩,
    fun s provided hs => ?_⟩
  · obtain ⟨r, hr, hnp⟩ := hmiss
    have hcond : ¬ ∀ x ∈ requiredOpts c, x ∈ provided := fun hall => hnp (hall r hr)
    have hd : dispatch (some (cmdName c)) provided = DispatchOutcome.usageError := by
      simp only [dispatch, parseCmd_cmdName]
      exact if_neg hcond
    exact ⟨hd, by rw [hd]; rfl, by rw [hd]; rfl⟩
  · have hd : dispatch (some s) provided = DispatchOutcome.noHandler := by
      simp only [dispatch, hs]
    exact ⟨hd, by rw [hd]; rfl, by rw [hd]; rfl⟩

theorem dispatch_validation_witness :
    (∃ r ∈ requiredOpts Cmd.createBucket, r ∉ (["region"] : List String)) ∧
    (dispatch (some (cmdName Cmd.createBucket)) ["region"] = DispatchOutcome.usageError ∧
      dispatchExitCode (dispatch (some (cmdName Cmd.createBucket)) ["region"]) = 1 ∧
      apiCallAttempted (dispatch (some (cmdName Cmd.createBucket)) ["region"]) = false) :=
  ⟨by decide, dispatch_validation_amended.1 Cmd.createBucket ["region"] (by decide)⟩

/-- C7: when no `--key` is supplied, the put-object request's key is the base
name of the local file path; e.g. `--file ./a.png` yields the key `a.png`. -/
theorem uploadFile_default_key :
    (∀ bucket filePath, (uploadRequest bucket filePath none).key = basename filePath) ∧
    (uploadRequest "B" "./a.png" none).key = "a.png" :=
  ⟨fun _ _ => rfl, by decide⟩

/-- C8: when no `--output` is supplied, a download with a present body is
written to the base name of the object key, and an absent response body fails
fast with the explicit "Empty response body" error and exit code 1 before any
local file is created. -/
theorem downloadFile_default_output :
    (∀ key body, downloadFileRun key none (some body) =
      DownloadOutcome.written (basename key)) ∧
    (∀ key out, downloadFileRun key out none = DownloadOutcome.failed "Empty response body" ∧
      downloadExitCode (downloadFileRun key out none) = 1) ∧
    downloadFileRun "remote/path/file.jpg" none (some [0]) = DownloadOutcome.written "file.jpg" :=
  ⟨fun _ _ => rfl, fun _ _ => ⟨rfl, rfl⟩, by decide⟩

/-- C6: every extension in the fixed table maps to its exact MIME string
(e.g. `.json` to `application/json`), and any path whose lowercased extension
is not a key of the table gets `application/octet-stream`. -/
theorem getContentType_table :
    (∀ p e m, (e, m) ∈ contentTypes → lowerStr (extname p) = e → getContentType p = m) ∧
    (∀ p, (∀ em ∈ contentTypes, em.1 ≠ lowerStr (extname p)) →
      getContentType p = "application/octet-stream") ∧
    getContentType "data.json" = "application/json" := by
  have hall : ∀ em ∈ contentTypes, contentTypes.lookup em.1 = some em.2 := by decide
  refine ⟨fun p e m hmem hext => ?_, fun p hnone => ?_, by decide⟩
  · have hl : contentTypes.lookup e = some m := hall (e, m) hmem
    rw [getContentType, hext, hl]
    rfl
  · rw [getContentType, lookup_eq_none_of_forall hnone]
    rfl

theorem getContentType_table_witness :
    ((".png", "image/png") ∈ contentTypes ∧ lowerStr (extname "logo.PNG") = ".png" ∧
      getContentType "logo.PNG" = "image/png") ∧
    ((∀ em ∈ contentTypes, em.1 ≠ lowerStr (extname "a.weird")) ∧
      getContentType "a.weird" = "application/octet-stream") :=
  ⟨⟨by decide, by decide,
      getContentType_table.1 "logo.PNG" ".png" "image/png" (by decide) (by decide)⟩,
    ⟨by decide, getContentType_table.2.1 "a.weird" (by decide)⟩⟩

/-- C9: the unit table has exactly 9 entries, and for every byte count
`b ≥ 1024 ^ 9` the computed index `floor(log_1024 b)` is at least 9, so the
table lookup is out of range (JS `undefined`, no valid unit name): the
largest-unit guarantee indeed holds only under `b < 1024 ^ 9`. -/
theorem formatBytes_unit_overflow (b : Nat) (h : 1024 ^ 9 ≤ b) :
    sizes.length = 9 ∧ 9 ≤ fbIndex b ∧ fbUnit b = none := by
  have h9 : 9 ≤ Nat.log 1024 b := Nat.le_log_of_pow_le (by norm_num) h
  refine ⟨rfl, h9, ?_⟩
  rw [fbUnit]
  exact List.get?_eq_none.mpr (by simpa [sizes, fbIndex] using h9)

theorem formatBytes_unit_overflow_witness :
    1024 ^ 9 ≤ 1024 ^ 9 + 1 ∧
    (sizes.length = 9 ∧ 9 ≤ fbIndex (1024 ^ 9 + 1) ∧ fbUnit (1024 ^ 9 + 1) = none) :=
  ⟨by norm_num, formatBytes_unit_overflow (1024 ^ 9 + 1) (by norm_num)⟩

/-- C3, counterexample: at the byte count `1024 ^ 9` (which is `> 0`) the
computed unit index is 9, past the end of the 9-entry table, so the unit
chosen is not any member of {Bytes, KB, MB, GB, TB, PB, EB, ZB, YB} — the
claim's "for every byte count b > 0" fails there. -/
theorem formatBytes_largestUnit_counterexample :
    0 < 1024 ^ 9 ∧ fbUnit (1024 ^ 9) = none := by
  refine ⟨by positivity, ?_⟩
  rw [fbUnit, fbIndex, Nat.log_pow (by norm_num)]
  rfl

/-- Rounding a scaled value to two decimals and re-scaling moves it by at most
half a hundredth of the scale factor. -/
theorem round_div_mul_abs_le (s : ℚ) (P : ℚ) (hP : 0 < P) :
    |(round (s * 100) : ℚ) / 100 * P - s * P| ≤ P / 200 := by
  have heq : (round (s * 100) : ℚ) / 100 * P - s * P
      = ((round (s * 100) : ℚ) - s * 100) * (P / 100) := by ring
  have hrd : |(round (s * 100) : ℚ) - s * 100| ≤ 1 / 2 := by
    rw [abs_sub_comm]; exact abs_sub_round _
  rw [heq, abs_mul, abs_of_pos (by positivity : (0 : ℚ) < P / 100)]
  calc |(round (s * 100) : ℚ) - s * 100| * (P / 100)
      ≤ 1 / 2 * (P / 100) := mul_le_mul_of_nonneg_right hrd (by positivity)
    _ = P / 200 := by ring

/-- C3, amended: `formatBytes 0` is exactly `"0 Bytes"`; and for `0 < b <
1024 ^ 9` the chosen index `i` satisfies `1024 ^ i ≤ b < 1024 ^ (i + 1)` (the
unique unit keeping the scaled value in `[1, 1024)`), the unit is a genuine
entry of the 9-unit table, and the value rounded to 2 decimals re-scaled by
`1024 ^ i` reconstructs `b` within half an ulp of the rounding, `1024 ^ i /
200`. The `b ≥ 1024 ^ 9` precondition the claim omits is forced by the
9-entry table (see the counterexample). -/
theorem formatBytes_spec_amended :
    formatBytes 0 2 = "0 Bytes" ∧
    ∀ b : Nat, 0 < b → b < 1024 ^ 9 →
      1024 ^ fbIndex b ≤ b ∧
      b < 1024 ^ (fbIndex b + 1) ∧
      fbIndex b < sizes.length ∧
      (∃ u, fbUnit b = some u) ∧
      |fbRounded b 2 * (1024 : ℚ) ^ fbIndex b - (b : ℚ)| ≤ (1024 : ℚ) ^ fbIndex b / 200 := by
  refine ⟨rfl, fun b hb hub => ?_⟩
  have hbne : b ≠ 0 := hb.ne'
  have h1 : 1024 ^ fbIndex b ≤ b := Nat.pow_log_le_self 1024 hbne
  have h2 : b < 1024 ^ (fbIndex b + 1) := Nat.lt_pow_succ_log_self (by norm_num) b
  have hlt : fbIndex b < sizes.length := by
    have hl := Nat.log_lt_of_lt_pow hbne hub
    simpa [sizes, fbIndex] using hl
  have hP : (0 : ℚ) < (1024 : ℚ) ^ fbIndex b := by positivity
  have hfb : fbRounded b 2 = (round (fbScaled b (fbIndex b) * 100) : ℚ) / 100 := by
    rw [fbRounded]
    norm_num
  have hxP : fbScaled b (fbIndex b) * (1024 : ℚ) ^ fbIndex b = (b : ℚ) := by
    rw [fbScaled, div_mul_cancel₀ _ (ne_of_gt hP)]
  refine ⟨h1, h2, hlt, ⟨sizes.get ⟨fbIndex b, hlt⟩, by rw [fbUnit]; exact List.get?_eq_get hlt⟩, ?_⟩
  calc |fbRounded b 2 * (1024 : ℚ) ^ fbIndex b - (b : ℚ)|
      = |(round (fbScaled b (fbIndex b) * 100) : ℚ) / 100 * (1024 : ℚ) ^ fbIndex b
          - fbScaled b (fbIndex b) * (1024 : ℚ) ^ fbIndex b| := by rw [hfb, hxP]
    _ ≤ (1024 : ℚ) ^ fbIndex b / 200 := round_div_mul_abs_le _ _ hP

theorem formatBytes_spec_amended_witness :
    0 < 1536 ∧ 1536 < 1024 ^ 9 ∧
    (1024 ^ fbIndex 1536 ≤ 1536 ∧
      1536 < 1024 ^ (fbIndex 1536 + 1) ∧
      fbIndex 1536 < sizes.length ∧
      (∃ u, fbUnit 1536 = some u) ∧
      |fbRounded 1536 2 * (1024 : ℚ) ^ fbIndex 1536 - ((1536 : ℕ) : ℚ)|
        ≤ (1024 : ℚ) ^ fbIndex 1536 / 200) :=
  ⟨by norm_num, by norm_num, formatBytes_spec_amended.2 1536 (by norm_num) (by norm_num)⟩

/-! ## Lowercasing commutes with the path decomposition (for C10) -/

theorem upperLowerPairs_facts :
    ∀ pr ∈ upperLowerPairs, pr.1 ≠ '.' ∧ pr.1 ≠ '/' ∧ pr.2 ≠ '.' ∧ pr.2 ≠ '/' ∧
      upperLowerPairs.lookup pr.2 = none := by decide

theorem lowerChar_beq_slash (c : Char) : (lowerChar c == '/') = (c == '/') := by
  rw [lowerChar]
  cases h : upperLowerPairs.lookup c with
  | none => rfl
  | some v =>
    have hf := upperLowerPairs_facts (c, v) (mem_of_lookup_eq_some h)
    simp only [Option.getD_some]
    rw [beq_eq_false_iff_ne.mpr hf.2.2.2.1, beq_eq_false_iff_ne.mpr hf.2.1]

theorem lowerChar_beq_dot (c : Char) : (lowerChar c == '.') = (c == '.') := by
  rw [lowerChar]
  cases h : upperLowerPairs.lookup c with
  | none => rfl
  | some v =>
    have hf := upperLowerPairs_facts (c, v) (mem_of_lookup_eq_some h)
    simp only [Option.getD_some]
    rw [beq_eq_false_iff_ne.mpr hf.2.2.1, beq_eq_false_iff_ne.mpr hf.1]

theorem lowerChar_eq_dot_iff (c : Char) : lowerChar c = '.' ↔ c = '.' := by
  have h := lowerChar_beq_dot c
  constructor
  · intro hc
    rw [hc] at h
    exact eq_of_beq (h.symm.trans (by decide))
  · intro hc
    subst hc
    decide

theorem lowerChar_idem (c : Char) : lowerChar (lowerChar c) = lowerChar c := by
  cases h : upperLowerPairs.lookup c with
  | none =>
    have hc : lowerChar c = c := by rw [lowerChar, h]; rfl
    rw [hc]
    exact hc
  | some v =>
    have hc : lowerChar c = v := by rw [lowerChar, h]; rfl
    have hf := upperLowerPairs_facts (c, v) (mem_of_lookup_eq_some h)
    have hv : lowerChar v = v := by rw [lowerChar, hf.2.2.2.2]; rfl
    rw [hc]
    exact hv

theorem lowerList_idem (l : List Char) : lowerList (lowerList l) = lowerList l := by
  induction l with
  | nil => rfl
  | cons c t ih =>
    simp only [lowerList, List.map_cons] at ih ⊢
    exact List.cons_eq_cons.mpr ⟨lowerChar_idem c, ih⟩

theorem dropTrailingSlashes_lowerList (l : List Char) :
    dropTrailingSlashes (lowerList l) = lowerList (dropTrailingSlashes l) := by
  have hfun : ((fun c => c == '/') ∘ lowerChar) = fun c : Char => c == '/' :=
    funext lowerChar_beq_slash
  rw [dropTrailingSlashes, dropTrailingSlashes, lowerList, lowerList,
    ← List.map_reverse, List.dropWhile_map, hfun, List.map_reverse]

theorem lastComponent_lowerList (l : List Char) :
    lastComponent (lowerList l) = lowerList (lastComponent l) := by
  have hfun : ((fun c => !(c == '/')) ∘ lowerChar) = fun c : Char => !(c == '/') := by
    funext c
    simp only [Function.comp_apply, lowerChar_beq_slash]
  rw [lastComponent, lastComponent, lowerList, lowerList,
    ← List.map_reverse, List.takeWhile_map, hfun, List.map_reverse]

theorem basenameList_lowerList (l : List Char) :
    basenameList (lowerList l) = lowerList (basenameList l) := by
  rw [basenameList, basenameList, dropTrailingSlashes_lowerList, lastComponent_lowerList]

theorem extSuffix_lowerList (l : List Char) :
    ∀ acc, extSuffix (lowerList l) (acc.map lowerList) = (extSuffix l acc).map lowerList := by
  induction l with
  | nil => intro acc; rfl
  | cons c t ih =>
    intro acc
    show extSuffix (lowerChar c :: lowerList t) (acc.map lowerList)
        = (extSuffix (c :: t) acc).map lowerList
    simp only [extSuffix]
    have hstep : (if lowerChar c == '.' then some (lowerChar c :: lowerList t)
          else acc.map lowerList)
        = ((if c == '.' then some (c :: t) else acc).map lowerList) := by
      rw [lowerChar_beq_dot]
      cases hc : c == '.' with
      | true =>
        have hc' : c = '.' := eq_of_beq hc
        subst hc'
        simp [lowerList, show lowerChar '.' = '.' from by decide]
      | false => simp
    rw [hstep]
    exact ih _

theorem lowerList_eq_dotdot_iff (l : List Char) :
    lowerList l = ['.', '.'] ↔ l = ['.', '.'] := by
  cases l with
  | nil => simp [lowerList]
  | cons a t =>
    cases t with
    | nil => simp [lowerList]
    | cons b t2 =>
      cases t2 with
      | nil => simp [lowerList, lowerChar_eq_dot_iff]
      | cons d t3 => simp [lowerList]

theorem extFromBase_lowerList (b : List Char) :
    extFromBase (lowerList b) = lowerList (extFromBase b) := by
  unfold extFromBase
  by_cases hdd : b = ['.', '.']
  · rw [if_pos ((lowerList_eq_dotdot_iff b).mpr hdd), if_pos hdd]
    rfl
  · rw [if_neg (fun h => hdd ((lowerList_eq_dotdot_iff b).mp h)), if_neg hdd]
    have hsfx : extSuffix (lowerList b) none = (extSuffix b none).map lowerList :=
      extSuffix_lowerList b none
    rw [hsfx]
    cases hes : extSuffix b none with
    | none => rfl
    | some e =>
      simp only [Option.map_some']
      rw [show (lowerList e).length = e.length from List.length_map e lowerChar,
        show (lowerList b).length = b.length from List.length_map b lowerChar]
      by_cases hlen : e.length = b.length
      · rw [if_pos hlen, if_pos hlen]
        rfl
      · rw [if_neg hlen, if_neg hlen]

theorem extnameList_lowerList (l : List Char) :
    extnameList (lowerList l) = lowerList (extnameList l) := by
  rw [extnameList, extnameList, basenameList_lowerList, extFromBase_lowerList]

theorem extname_lowerStr (s : String) : extname (lowerStr s) = lowerStr (extname s) := by
  show String.mk (extnameList (lowerList s.data)) = String.mk (lowerList (extnameList s.data))
  rw [extnameList_lowerList]

theorem lowerStr_idem (s : String) : lowerStr (lowerStr s) = lowerStr s := by
  show String.mk (lowerList (lowerList s.data)) = String.mk (lowerList s.data)
  rw [lowerList_idem]

/-- C10: `getContentType` is case-insensitive in the file extension — the
result depends only on the lowercased extension (two paths whose extensions
agree up to ASCII case get the same content type, and lowercasing a path,
which lowercases its extension, never changes the result); in particular a
path ending in `.JSON` yields `application/json`. -/
theorem getContentType_case_insensitive :
    (∀ p q : String, lowerStr (extname p) = lowerStr (extname q) →
      getContentType p = getContentType q) ∧
    (∀ p : String, getContentType (lowerStr p) = getContentType p) ∧
    getContentType "a.JSON" = "application/json" := by
  refine ⟨fun p q h => ?_, fun p => ?_, by decide⟩
  · rw [getContentType, getContentType, h]
  · rw [getContentType, getContentType, extname_lowerStr, lowerStr_idem]

theorem getContentType_case_insensitive_witness :
    lowerStr (extname "b.JSON") = lowerStr (extname "b.json") ∧
    getContentType "b.JSON" = getContentType "b.json" :=
  ⟨by decide, getContentType_case_insensitive.1 "b.JSON" "b.json" (by decide)⟩

end S3Cli

/-! Sanity checks that the embedded Node path helpers agree with the
documented `path.basename` / `path.extname` behavior on standard cases. -/

section PathSanityChecks
open S3Cli
example : extname "a.json" = ".json" := by decide
example : extname "/x/y.tar.gz" = ".gz" := by decide
example : extname ".bashrc" = "" := by decide
example : extname "file." = "." := by decide
example : extname "a.txt///" = ".txt" := by decide
example : extname ".." = "" := by decide
example : extname "x" = "" := by decide
example : basename "./a.png" = "a.png" := by decide
example : basename "dir/f.txt" = "f.txt" := by decide
example : basename "/" = "" := by decide
example : lowerStr ".JSON" = ".json" := by decide
end PathSanityChecks
